import Mathlib

/-!
Verification of the go-logs-go hierarchical leveled-logging library.

The repository contains two package variants of the same design:
  * package `gologsgo` (go-logs-go.go): an ascending enum of log levels
    (`NotSet < All < Trace < Debug < Info < Warn < Error < Off`), a
    configuration tree of `*LogConfig` nodes, a root constructor `New`,
    cached `ChildLogger` creation that mutates the shared configuration
    tree in place, and a `LeveledLogHandler` that formats output lines;
  * package `logging` (logger.go): descending integer severities
    (`ALL = 2^32-1, TRACE = 600, ..., FATAL = 100, OFF = 0`) and a
    `Log` method that filters on `severity > logger.level`.

Pointers into the shared configuration tree are modelled with an explicit
store (`Store`): a list of configuration nodes addressed by index, so the
in-place mutation performed by `ChildLogger` is explicit state passing.
Functions from Go's standard library (`strings`, `encoding/json`) are
modelled by executable character-list definitions below; `encoding/json`
is modelled on the object/string fragment of JSON, the only fragment the
configuration documents of this library use.  Output formatters
(`fatih/color` and the package's own `greyString`) are modelled by the
escape-sequence wrappers they produce.
-/

/-- Association-list lookup, modelling a Go map read: first matching key. -/
def assocLookup {κ α : Type} [DecidableEq κ] : List (κ × α) → κ → Option α
  | [], _ => none
  | (k, a) :: rest, key => if k = key then some a else assocLookup rest key

/-- Go `len(s)` on a string: the number of UTF-8 bytes. -/
def goLen (s : String) : Nat :=
  (s.data.map Char.utf8Size).sum

/-- Go `strings.ToLower` (character-wise, executable model). -/
def goToLower (s : String) : String := ⟨s.data.map Char.toLower⟩

/-- Go `strings.ToUpper` (character-wise, executable model). -/
def goToUpper (s : String) : String := ⟨s.data.map Char.toUpper⟩

/-- Go `strings.Contains(s, sub)` for a single-character `sub`. -/
def goContainsChar (s : String) (c : Char) : Bool := s.data.contains c

/-- Go `strings.HasPrefix`. -/
def goHasPref (s pre : String) : Bool := pre.data.isPrefixOf s.data

/-- Go `strings.TrimPrefix`. -/
def goTrimPref (s pre : String) : String :=
  if goHasPref s pre then ⟨s.data.drop pre.data.length⟩ else s

/-- Worker for `goSplit`.  The fuel argument bounds the number of
separator occurrences; `goSplit` supplies enough fuel for any input. -/
def goSplitAux (sep : List Char) : Nat → List Char → List Char → List (List Char)
  | _, [], acc => [acc.reverse]
  | 0, rest, acc => [acc.reverse ++ rest]
  | fuel + 1, c :: rest, acc =>
    if sep.isPrefixOf (c :: rest) then
      acc.reverse :: goSplitAux sep fuel (List.drop sep.length (c :: rest)) []
    else
      goSplitAux sep fuel rest (c :: acc)

/-- Go `strings.Split(s, sep)` for non-empty `sep`: split on every
non-overlapping, leftmost occurrence of the separator. -/
def goSplit (s sep : String) : List String :=
  (goSplitAux sep.data (s.data.length + 1) s.data []).map (fun l => ⟨l⟩)

/-- Worker for `goReplaceAll` (fuel as in `goSplitAux`). -/
def goReplaceAllAux (old new : List Char) : Nat → List Char → List Char
  | _, [] => []
  | 0, rest => rest
  | fuel + 1, c :: rest =>
    if old.isPrefixOf (c :: rest) then
      new ++ goReplaceAllAux old new fuel (List.drop old.length (c :: rest))
    else
      c :: goReplaceAllAux old new fuel rest

/-- Go `strings.ReplaceAll(s, old, new)` for non-empty `old`. -/
def goReplaceAll (s old new : String) : String :=
  ⟨goReplaceAllAux old.data new.data (s.data.length + 1) s.data⟩

/-- Worker for `goReplaceFirst`. -/
def goReplaceFirstAux (old new : List Char) : List Char → List Char
  | [] => []
  | c :: rest =>
    if old.isPrefixOf (c :: rest) then new ++ List.drop old.length (c :: rest)
    else c :: goReplaceFirstAux old new rest

/-- Go `strings.Replace(s, old, new, 1)` for non-empty `old`: replace the
leftmost occurrence only. -/
def goReplaceFirst (s old new : String) : String :=
  ⟨goReplaceFirstAux old.data new.data s.data⟩

/-- Worker for `goTitle`: the boolean records whether the previous
character was a letter. -/
def goTitleAux : Bool → List Char → List Char
  | _, [] => []
  | prevLetter, c :: rest =>
    (if c.isAlpha && !prevLetter then c.toUpper else c) :: goTitleAux c.isAlpha rest

/-- Go `strings.Title`: upper-case every letter that begins a word
(i.e. is not preceded by a letter). -/
def goTitle (s : String) : String := ⟨goTitleAux false s.data⟩

/-- Interleave format-string fragments with arguments: fragments and
arguments alternate, as produced by splitting a format string on `%s`.
The final catch-all handles arity mismatches, which the logging code
never produces. -/
def interleaveFmt : List String → List String → String
  | [p], [] => p
  | p :: ps, a :: rest => p ++ a ++ interleaveFmt ps rest
  | ps, _ => String.join ps

/-- Go `fmt.Sprintf` restricted to format strings whose only verbs are
`%s` and whose argument count matches, the only use this library makes
of it. -/
def sprintfS (fmt : String) (args : List String) : String :=
  interleaveFmt (goSplit fmt "%s") args

/-- Result of running a Go function that can return normally, return an
error value, or panic. -/
inductive GoResult (α : Type) : Type where
  | ok (a : α) : GoResult α
  | err (msg : String) : GoResult α
  | panicked (msg : String) : GoResult α
  deriving Repr, DecidableEq

namespace gologsgo

/-- The `LogLevel` constants of package gologsgo (declared with `iota`,
so `toNat` below gives their Go integer values). -/
inductive LogLevel : Type where
  | notSet | all | trace | debug | info | warn | error | off
  deriving DecidableEq, Repr

/-- The Go integer value of each `LogLevel` constant (`iota` order). -/
def LogLevel.toNat : LogLevel → Nat
  | .notSet => 0
  | .all => 1
  | .trace => 2
  | .debug => 3
  | .info => 4
  | .warn => 5
  | .error => 6
  | .off => 7

namespace LogLevels

/-- `LogLevels.order` as initialized in `init()`. -/
def order : List LogLevel :=
  [.all, .trace, .debug, .info, .warn, .error, .off]

/-- `LogLevels.labels` as initialized in `init()`. -/
def labels : List (LogLevel × String) :=
  [(.all, "ALL"), (.trace, "TRACE"), (.debug, "DEBUG"), (.info, "INFO"),
   (.warn, "WARN"), (.error, "ERROR"), (.off, "OFF")]

/-- `orderedLogLevels.Label`: a Go map read, yielding the zero value `""`
for a level with no label (`NotSet`). -/
def Label (level : LogLevel) : String := (assocLookup labels level).getD ""

/-- `orderedLogLevels.Level`: reverse lookup from label to level,
`(NotSet, false)` when the label is unknown.  (The memoization caches of
the Go struct are pure memoization and are omitted.) -/
def LevelOf (label : String) : LogLevel × Bool :=
  match (labels.find? (fun p => p.2 = label)) with
  | some (k, _) => (k, true)
  | none => (.notSet, false)

/-- Worker for `Index`. -/
def indexAux : List LogLevel → Nat → LogLevel → Nat × Bool
  | [], _, _ => (0, false)
  | v :: rest, i, level => if v = level then (i, true) else indexAux rest (i + 1) level

/-- `orderedLogLevels.Index`: position of a level in `order`,
`(0, false)` when absent. -/
def Index (level : LogLevel) : Nat × Bool := indexAux order 0 level

/-- `orderedLogLevels.Next`. -/
def Next (level : LogLevel) : LogLevel × Bool :=
  let (idx, ok) := Index level
  if ok then
    let next := idx + 1
    if next < order.length then (order.getD next .notSet, true)
    else (.notSet, false)
  else (.notSet, false)

/-- `orderedLogLevels.Previous`: the guard is `prev > 0`, so the level at
index 0 of `order` (`All`) is never returned. -/
def Previous (level : LogLevel) : LogLevel × Bool :=
  let (idx, ok) := Index level
  if ok then
    let prev := idx - 1
    if prev > 0 then (order.getD prev .notSet, true)
    else (.notSet, false)
  else (.notSet, false)

end LogLevels

/-- A `LogConfig` node in the heap: `Loggers` maps child names to
pointers (store addresses; `none` is a nil pointer) and `Level` is the
node's level.  Pointer structure is made explicit so `ChildLogger`'s
in-place write to a shared node is observable. -/
structure LogConfigN : Type where
  loggers : List (String × Option Nat)
  level : LogLevel
  deriving DecidableEq, Repr

/-- The heap of `LogConfig` nodes; an address is an index, allocation
appends. -/
abbrev Store : Type := List LogConfigN

/-- Zero node, used as the (unreachable) default of a store read. -/
def dfltNode : LogConfigN := ⟨[], .notSet⟩

/-- Read the node a pointer refers to. -/
def readNode (σ : Store) (addr : Nat) : LogConfigN := σ.getD addr dfltNode

/-- The `Logger` struct: `configAddr` is the `logConfig` pointer into the
store, `children` the memoization map of `ChildLogger`.  The `parent`
pointer of the Go struct is written but never read anywhere in the
package and the `logHandler` function field is the external output
collaborator; both are omitted from the state. -/
inductive GoLogger : Type where
  | mk (configAddr : Nat) (label : String) (children : List (String × GoLogger))

/-- The `logConfig` pointer of a logger. -/
def GoLogger.configAddr : GoLogger → Nat
  | .mk a _ _ => a

/-- The `label` field of a logger. -/
def GoLogger.label : GoLogger → String
  | .mk _ l _ => l

/-- The `children` memoization map of a logger. -/
def GoLogger.children : GoLogger → List (String × GoLogger)
  | .mk _ _ c => c

/-- `Logger.Level()`: reads the level of the logger's config node. -/
def loggerLevel (σ : Store) (lg : GoLogger) : LogLevel :=
  (readNode σ lg.configAddr).level

mutual
/-- The value side of a configuration document before allocation: the
`LogConfig` struct (`Loggers` map and `Level`). -/
inductive LogConfigT : Type where
  | mk (loggers : LogEntries) (level : LogLevel) : LogConfigT
  deriving DecidableEq, Repr
/-- The `map[string]*LogConfig` of a configuration document; `consNil`
is an entry whose pointer is nil (a JSON `null`). -/
inductive LogEntries : Type where
  | nil : LogEntries
  | consNil (name : String) (rest : LogEntries) : LogEntries
  | consNode (name : String) (cfg : LogConfigT) (rest : LogEntries) : LogEntries
  deriving DecidableEq, Repr
end

/-- `RootLogConfig` (the `LogHandler` function field is the external
output collaborator and is omitted). -/
structure RootLogConfigT : Type where
  loggers : LogEntries
  level : LogLevel
  label : String
  deriving DecidableEq, Repr

mutual
/-- Allocate every node of a configuration value in the store, returning
the address of the allocated root node. -/
def allocNode (σ : Store) : LogConfigT → Store × Nat
  | .mk loggers level =>
    let (σ1, entries) := allocEntries σ loggers
    (σ1 ++ [⟨entries, level⟩], σ1.length)
def allocEntries (σ : Store) : LogEntries → Store × List (String × Option Nat)
  | .nil => (σ, [])
  | .consNil name rest =>
    let (σ1, es) := allocEntries σ rest
    (σ1, (name, none) :: es)
  | .consNode name cfg rest =>
    let (σ1, a) := allocNode σ cfg
    let (σ2, es) := allocEntries σ1 rest
    (σ2, (name, some a) :: es)
end

/-- `New`: build the root logger.  Level defaults to `Info` when unset,
the label to `""`; the logger's `logConfig` is a fresh node sharing the
`Loggers` map of the supplied config. -/
def new (cfg : RootLogConfigT) : Store × GoLogger :=
  let level := if cfg.level = .notSet then .info else cfg.level
  let label := if goLen cfg.label < 1 then "" else cfg.label
  let (σ1, entries) := allocEntries [] cfg.loggers
  (σ1 ++ [⟨entries, level⟩], .mk σ1.length label [])

/-- The config-resolution step of `ChildLogger`: look the name up in the
parent node's `Loggers` map; a missing entry or nil pointer becomes a
freshly allocated `&LogConfig{}`; a node whose `Level` is `NotSet`
(including the fresh one) gets the parent's level written into it — for
a shared node, an in-place update of the configuration tree.  Returns
the updated store and the child node's address. -/
def resolveChildConfig (σ : Store) (parentNode : LogConfigN) (name : String) : Store × Nat :=
  match assocLookup parentNode.loggers name with
  | some (some addr) =>
    let node := readNode σ addr
    if node.level = .notSet then
      (σ.set addr { node with level := parentNode.level }, addr)
    else (σ, addr)
  | _ => (σ ++ [⟨[], parentNode.level⟩], σ.length)

/-- `Logger.ChildLogger`: validates the name, consults the memoization
map, resolves the child's config node via `resolveChildConfig`, computes
the label (the parent's label is joined only when `len > 1`), and caches
the child.  Panics are `GoResult.panicked`. -/
def childLogger (σ : Store) (lg : GoLogger) (name : String) :
    GoResult (Store × GoLogger × GoLogger) :=
  if goLen name < 1 then .panicked "Child loggers require a name"
  else if goContainsChar name '.' then .panicked "Child logger name should not contain the dot"
  else
    match assocLookup lg.children name with
    | some child => .ok (σ, lg, child)
    | none =>
      let r := resolveChildConfig σ (readNode σ lg.configAddr) name
      let label := if goLen lg.label > 1 then lg.label ++ "." ++ name else name
      let child : GoLogger := .mk r.2 label []
      .ok (r.1, .mk lg.configAddr lg.label (lg.children ++ [(name, child)]), child)

/-- The `LogMessage` struct handed to the log handler. -/
structure LogMessage : Type where
  Level : LogLevel
  LevelLabel : String
  Logger : String
  Message : String
  deriving DecidableEq, Repr

/-- `Logger.log`: returns `some msg` when the handler is invoked with
`msg` and `none` when the call returns without side effect.  The
`fmt.Sprintf(format, args...)` of the message body is the already
formatted `message` argument. -/
def log (σ : Store) (lg : GoLogger) (level : LogLevel) (message : String) :
    Option LogMessage :=
  if level.toNat < (loggerLevel σ lg).toNat then none
  else some ⟨level, LogLevels.Label level, lg.label, message⟩

/-- The formatter functions stored in `LeveledLogHandler.Levels`:
`greyString` and the three `fatih/color` functions. -/
inductive FmtId : Type where
  | grey | white | yellow | red
  deriving DecidableEq, Repr

/-- Apply a formatter (`none` is plain `fmt.Sprintf`): format the `%s`
template and wrap with the formatter's escape sequences. -/
def applyFmt : Option FmtId → String → List String → String
  | none, fmt, args => sprintfS fmt args
  | some .grey, fmt, args => "\x1b[90;1m" ++ sprintfS fmt args ++ "\x1b[0m"
  | some .white, fmt, args => "\x1b[37m" ++ sprintfS fmt args ++ "\x1b[0m"
  | some .yellow, fmt, args => "\x1b[33m" ++ sprintfS fmt args ++ "\x1b[0m"
  | some .red, fmt, args => "\x1b[31m" ++ sprintfS fmt args ++ "\x1b[0m"

/-- `LeveledLogHandler` (the formatter map holds `FmtId`s). -/
structure LeveledLogHandler : Type where
  Format : String
  RootFormat : String
  Levels : List (LogLevel × FmtId)
  deriving DecidableEq, Repr

/-- The formatter-selection loop of `LeveledLogHandler.LogHandler`.  The
loop body declares `levelFn := h.Levels[lvl]` with `:=`, a new variable
shadowing the outer `levelFn`, so the outer variable (first argument)
is passed through unchanged; only `lvl` advances along `Previous`.
`fuel` bounds the iteration count; `LogHandlerOut` supplies more fuel
than the 7-element level order can consume. -/
def logHandlerLoop (h : LeveledLogHandler) :
    Nat → Option FmtId → LogLevel → Option FmtId × LogLevel
  | 0, outerLevelFn, lvl => (outerLevelFn, lvl)
  | fuel + 1, outerLevelFn, lvl =>
    match assocLookup h.Levels lvl with
    | some _ => (outerLevelFn, lvl)
    | none =>
      let p := LogLevels.Previous lvl
      if p.2 then logHandlerLoop h fuel outerLevelFn p.1
      else (outerLevelFn, lvl)

/-- `LeveledLogHandler.LogHandler`: the string passed to `log.Println`. -/
def LeveledLogHandler.LogHandlerOut (h : LeveledLogHandler) (msg : LogMessage) : String :=
  let levelFn := (logHandlerLoop h 8 none msg.Level).1
  if goLen h.RootFormat > 0 ∧ goLen msg.Logger = 0 then
    applyFmt levelFn h.RootFormat [goToUpper msg.LevelLabel, msg.Message]
  else
    applyFmt levelFn h.Format [goToUpper msg.LevelLabel, msg.Logger, msg.Message]

/-- `defaultLeveledLogHandler` as initialized in `init()`. -/
def defaultLeveledLogHandler : LeveledLogHandler :=
  { Format := "%s [%s]: %s"
    RootFormat := "%s: %s"
    Levels := [(.trace, .grey), (.debug, .grey), (.info, .white),
               (.warn, .yellow), (.error, .red)] }

/-! `encoding/json` is modelled on the object/string fragment of JSON
(the only fragment configuration documents of this library use):
`JVal`/`JFields` is the parsed value, `parseJsonObj` the parser used for
environment-variable values that look like JSON, and the `unmarshal*`
functions below the decoding of a parsed value into the typed
configuration structs. -/

mutual
/-- A parsed JSON value (object/string fragment). -/
inductive JVal : Type where
  | str (s : String) : JVal
  | obj (fields : JFields) : JVal
  deriving DecidableEq, Repr
/-- The ordered fields of a JSON object (also the model of the
`map[string]interface{}` that `EnvPrefixConfig` assembles). -/
inductive JFields : Type where
  | nil : JFields
  | cons (key : String) (val : JVal) (rest : JFields) : JFields
  deriving DecidableEq, Repr
end

/-- Lookup in an assembled `map[string]interface{}`. -/
def jfGet : JFields → String → Option JVal
  | .nil, _ => none
  | .cons k v rest, key => if k = key then some v else jfGet rest key

/-- Go map assignment `m[key] = v`: overwrite the existing entry or add
a new one. -/
def jfSet : JFields → String → JVal → JFields
  | .nil, key, v => .cons key v .nil
  | .cons k v0 rest, key, v =>
    if k = key then .cons k v rest else .cons k v0 (jfSet rest key v)

/-- Skip JSON whitespace. -/
def skipWs : List Char → List Char
  | c :: rest => if c = ' ' ∨ c = '\n' ∨ c = '\t' ∨ c = '\r' then skipWs rest else c :: rest
  | [] => []

/-- Parse the body of a JSON string after the opening quote (no escape
sequences; a backslash fails the parse). -/
def parseStrBody : List Char → Option (List Char × List Char)
  | [] => none
  | c :: rest =>
    if c = '"' then some ([], rest)
    else if c = '\\' then none
    else (parseStrBody rest).map (fun (s, r) => (c :: s, r))

mutual
/-- Parse a JSON value (string or object). -/
def parseVal (fuel : Nat) (input : List Char) : Option (JVal × List Char) :=
  match fuel with
  | 0 => none
  | fuel + 1 =>
    match skipWs input with
    | '"' :: rest => (parseStrBody rest).map (fun (s, r) => (JVal.str ⟨s⟩, r))
    | c :: rest =>
      if c = '\x7b' then
        match skipWs rest with
        | c2 :: rest2 =>
          if c2 = '\x7d' then some (JVal.obj .nil, rest2)
          else (parseMembers fuel (c2 :: rest2)).map (fun (fs, r) => (JVal.obj fs, r))
        | [] => none
      else none
    | [] => none
/-- Parse a non-empty member list of a JSON object, consuming the
closing brace. -/
def parseMembers (fuel : Nat) (input : List Char) : Option (JFields × List Char) :=
  match fuel with
  | 0 => none
  | fuel + 1 =>
    match skipWs input with
    | '"' :: rest =>
      match parseStrBody rest with
      | none => none
      | some (k, r1) =>
        match skipWs r1 with
        | ':' :: r2 =>
          match parseVal fuel r2 with
          | none => none
          | some (v, r3) =>
            match skipWs r3 with
            | ',' :: r4 => (parseMembers fuel r4).map (fun (fs, r) => (JFields.cons ⟨k⟩ v fs, r))
            | c :: r4 => if c = '\x7d' then some (JFields.cons ⟨k⟩ v .nil, r4) else none
            | [] => none
        | _ => none
    | _ => none
end

/-- `json.Unmarshal(value, &v)` for `v : map[string]interface{}`: the
value must be a complete JSON object. -/
def parseJsonObj (s : String) : Option JFields :=
  match parseVal (s.data.length + 1) s.data with
  | some (.obj fs, rest) => if skipWs rest = [] then some fs else none
  | _ => none

/-- `LogLevel.UnmarshalJSON` on a parsed JSON value: a string is
upper-cased and looked up among the labels; any other value in the
modelled fragment is an error.  (A JSON number arrives as `float64`, so
the `case int` branch never fires, and the fragment has no `null`.) -/
def unmarshalLevel : JVal → GoResult LogLevel
  | .str s =>
    match LogLevels.LevelOf (goToUpper s) with
    | (level, true) => .ok level
    | (_, false) => .err "Invalid JSON value for LogLevel"
  | .obj _ => .err "Invalid JSON value for LogLevel"

mutual
/-- Unmarshal a JSON value into a `LogConfig`: fields are applied in
order (`level` via `unmarshalLevel`, `loggers` recursively, unknown
fields ignored); an absent `level` stays the zero value `NotSet`. -/
def unmarshalLogConfig : JVal → GoResult LogConfigT
  | .str _ => .err "json: cannot unmarshal string into LogConfig"
  | .obj fields => unmarshalConfigFields fields (.mk .nil .notSet)
/-- Apply the fields of a JSON object to a `LogConfig` being built. -/
def unmarshalConfigFields (fields : JFields) (acc : LogConfigT) : GoResult LogConfigT :=
  match fields, acc with
  | .nil, acc => .ok acc
  | .cons k v rest, .mk loggers level =>
    if k = "level" then
      match unmarshalLevel v with
      | .ok level' => unmarshalConfigFields rest (.mk loggers level')
      | .err e => .err e
      | .panicked e => .panicked e
    else if k = "loggers" then
      match v with
      | .str _ => .err "json: cannot unmarshal string into map[string]*LogConfig"
      | .obj fs =>
        match unmarshalEntries fs with
        | .ok entries => unmarshalConfigFields rest (.mk entries level)
        | .err e => .err e
        | .panicked e => .panicked e
    else unmarshalConfigFields rest (.mk loggers level)
/-- Unmarshal the fields of a `loggers` object into a
`map[string]*LogConfig`. -/
def unmarshalEntries : JFields → GoResult LogEntries
  | .nil => .ok .nil
  | .cons k v rest =>
    match unmarshalLogConfig v with
    | .ok cfg =>
      match unmarshalEntries rest with
      | .ok es => .ok (.consNode k cfg es)
      | .err e => .err e
      | .panicked e => .panicked e
    | .err e => .err e
    | .panicked e => .panicked e
end

/-- Unmarshal a JSON object into a `RootLogConfig` (adds the `label`
string field to the `LogConfig` fields). -/
def unmarshalRootFields (fields : JFields) (acc : RootLogConfigT) : GoResult RootLogConfigT :=
  match fields, acc with
  | .nil, acc => .ok acc
  | .cons k v rest, .mk loggers level label =>
    if k = "level" then
      match unmarshalLevel v with
      | .ok level' => unmarshalRootFields rest (.mk loggers level' label)
      | .err e => .err e
      | .panicked e => .panicked e
    else if k = "loggers" then
      match v with
      | .str _ => .err "json: cannot unmarshal string into map[string]*LogConfig"
      | .obj fs =>
        match unmarshalEntries fs with
        | .ok entries => unmarshalRootFields rest (.mk entries level label)
        | .err e => .err e
        | .panicked e => .panicked e
    else if k = "label" then
      match v with
      | .str s => unmarshalRootFields rest (.mk loggers level s)
      | .obj _ => .err "json: cannot unmarshal object into string"
    else unmarshalRootFields rest (.mk loggers level label)

/-- `JsonConfig` on an already parsed document. -/
def unmarshalRoot (v : JVal) : GoResult RootLogConfigT :=
  match v with
  | .str _ => .err "json: cannot unmarshal string into RootLogConfig"
  | .obj fields => unmarshalRootFields fields (.mk .nil .notSet "")

/-- The per-segment ENV_CASE-to-camelCase conversion of
`EnvPrefixConfig`: `strings.Replace(strings.Join(strings.Split(
strings.Title(strings.ToLower(strings.ReplaceAll(k, "_", " "))), " "),
""), string(k[0]), strings.ToLower(string(k[0])), 1)`.  Indexing `k[0]`
panics on an empty segment. -/
def camelKey (k : String) : GoResult String :=
  match k.data with
  | [] => .panicked "runtime error: index out of range"
  | c0 :: _ =>
    let joined := String.join (goSplit (goTitle (goToLower (goReplaceAll k "_" " "))) " ")
    .ok (goReplaceFirst joined (String.singleton c0) (goToLower (String.singleton c0)))

/-- The inner loop of `EnvPrefixConfig` over the `__`-separated key
segments: earlier segments descend into (or create) nested maps — a
non-map value already present there fails the `.(map[string]interface{})`
type assertion, a Go panic — and the final segment assigns the value.
A value whose first rune is `{` is first tried as JSON
(`[]rune(envvalue)[0]` panics on an empty value); on parse failure the
raw string is stored and a warning logged. -/
def setEnvPath (cfg : JFields) (envvalue : String) : List String → GoResult JFields
  | [] => .ok cfg
  | [k] =>
    match camelKey k with
    | .panicked e => .panicked e
    | .err e => .err e
    | .ok key =>
      match envvalue.data with
      | [] => .panicked "runtime error: index out of range"
      | c :: _ =>
        if c = '\x7b' then
          match parseJsonObj envvalue with
          | some fields => .ok (jfSet cfg key (.obj fields))
          | none => .ok (jfSet cfg key (.str envvalue))
        else .ok (jfSet cfg key (.str envvalue))
  | k :: k2 :: rest =>
    match camelKey k with
    | .panicked e => .panicked e
    | .err e => .err e
    | .ok key =>
      match jfGet cfg key with
      | some (.str _) =>
        .panicked "interface conversion: interface \x7b\x7d is string, not map[string]interface \x7b\x7d"
      | some (.obj sub) =>
        match setEnvPath sub envvalue (k2 :: rest) with
        | .ok sub' => .ok (jfSet cfg key (.obj sub'))
        | .err e => .err e
        | .panicked e => .panicked e
      | none =>
        match setEnvPath .nil envvalue (k2 :: rest) with
        | .ok sub' => .ok (jfSet cfg key (.obj sub'))
        | .err e => .err e
        | .panicked e => .panicked e

/-- The environment scan of `EnvPrefixConfig`: each environment entry is
the string `name=value`; entries starting with `prefix_` are split on
`=` (name and first value fragment), the name is stripped of the prefix
and split on `__`, and the segments are fed to `setEnvPath`. -/
def buildEnvCfg (pref : String) : List (String × String) → JFields → GoResult JFields
  | [], cfg => .ok cfg
  | (n, v) :: rest, cfg =>
    let envpair := n ++ "=" ++ v
    let fullpref := pref ++ "_"
    if goHasPref envpair fullpref then
      match goSplit envpair "=" with
      | envname :: envvalue :: _ =>
        let envkeys := goSplit (goTrimPref envname fullpref) "__"
        match setEnvPath cfg envvalue envkeys with
        | .ok cfg' => buildEnvCfg pref rest cfg'
        | .err e => .err e
        | .panicked e => .panicked e
      | _ => .panicked "runtime error: index out of range"
    else buildEnvCfg pref rest cfg

/-- `EnvPrefixConfig`: scan the environment, assemble the nested map,
and decode it as a configuration document (the `json.Marshal` /
`json.Unmarshal` round-trip of the assembled map is value-preserving, so
the assembled map is decoded directly). -/
def envPrefixConfig (environ : List (String × String)) (pref : String) :
    GoResult RootLogConfigT :=
  match buildEnvCfg pref environ .nil with
  | .ok cfg => unmarshalRoot (.obj cfg)
  | .err e => .err e
  | .panicked e => .panicked e

/-- The configuration
`{level: ERROR, loggers: {main: {level: INFO, loggers: {test: {level: DEBUG}}}}}`. -/
def cfgErrorInfoDebug : RootLogConfigT :=
  ⟨.consNode "main"
      (.mk (.consNode "test" (.mk .nil .debug) .nil) .info) .nil,
   .error, ""⟩

/-- Build the root logger from `cfgErrorInfoDebug`, create the child
`"main"` and under it the grandchild `"test"`; collect the root's level,
the child's level and label, and the grandchild's level and label. -/
def runErrorInfoDebug : Option (LogLevel × LogLevel × String × LogLevel × String) :=
  let (σ0, root) := new cfgErrorInfoDebug
  match childLogger σ0 root "main" with
  | .ok (σ1, _, mainLg) =>
    match childLogger σ1 mainLg "test" with
    | .ok (σ2, _, testLg) =>
      some (loggerLevel σ0 root, loggerLevel σ1 mainLg, mainLg.label,
            loggerLevel σ2 testLg, testLg.label)
    | _ => none
  | _ => none

/-- The JSON object assigned to the environment variable in the
env-prefix loader scenarios. -/
def envJsonValue : String :=
  "\x7b\"level\":\"WARN\",\"loggers\":\x7b\"grandchild\":\x7b\"level\":\"ERROR\"\x7d\x7d\x7d"

/-- Run the env-prefix loader on a single environment variable bound to
`envJsonValue`, build the root logger, create the child `"jsonChild"`
and its child `"grandchild"`, and collect their levels. -/
def runEnvJson (envName : String) : Option (LogLevel × LogLevel) :=
  match envPrefixConfig [(envName, envJsonValue)] "PREFIX" with
  | .ok cfg =>
    let (σ0, root) := new cfg
    match childLogger σ0 root "jsonChild" with
    | .ok (σ1, _, child) =>
      match childLogger σ1 child "grandchild" with
      | .ok (σ2, _, gchild) => some (loggerLevel σ1 child, loggerLevel σ2 gchild)
      | _ => none
    | _ => none
  | _ => none

/-- Create the child `"test"` under a root logger whose label is the
single-character string `"a"` and return the child's label. -/
def runSingleCharLabel : Option String :=
  let (σ0, root) := new ⟨.nil, .info, "a"⟩
  match childLogger σ0 root "test" with
  | .ok (_, _, child) => some child.label
  | _ => none

/-- A store with one `NotSet` config node (address 0) that the parent's
config node (address 1) references under the name `"kid"`. -/
def storeKid : Store := [⟨[], .notSet⟩, ⟨[("kid", some 0)], .info⟩]

/-- A parent logger using address 1 of `storeKid` as its config. -/
def loggerKid : GoLogger := .mk 1 "rt" []

/-- A one-node store giving a logger an `Info` threshold. -/
def storeInfo : Store := [⟨[], .info⟩]

/-- A logger labeled `"main.test"` over `storeInfo`. -/
def loggerMainTest : GoLogger := .mk 0 "main.test" []

/-- The `LogMessage` produced by `loggerMainTest` for a `Warn` call. -/
def msgWarnHello : LogMessage := ⟨.warn, "WARN", "main.test", "hello"⟩

end gologsgo

namespace logging

/-- The integer log constants of package logging. -/
def ALL : Int := 2 ^ 32 - 1

/-- `TRACE = 600`. -/
def TRACE : Int := 600

/-- `DEBUG = 500`. -/
def DEBUG : Int := 500

/-- `INFO = 400`. -/
def INFO : Int := 400

/-- `WARN = 300`. -/
def WARN : Int := 300

/-- `ERROR = 200`. -/
def ERROR : Int := 200

/-- `FATAL = 100`. -/
def FATAL : Int := 100

/-- `OFF = 0`. -/
def OFF : Int := 0

/-- `levelLabel`: the canonical label of the least severe named level a
given magnitude reaches. -/
def levelLabel (level : Int) : String :=
  if level ≥ TRACE then "TRACE"
  else if level ≥ DEBUG then "DEBUG"
  else if level ≥ INFO then "INFO"
  else if level ≥ WARN then "WARN"
  else if level ≥ ERROR then "ERROR"
  else if level ≥ FATAL then "FATAL"
  else "OFF"

/-- The `LogConfig` struct of package logging (`Level` is a `*string`). -/
inductive LC : Type where
  | mk (loggers : List (String × Option LC)) (level : Option String) : LC

/-- The `logFormatter` struct (only the fields `Log` reads matter for
the emission claims; the full struct is carried for fidelity). -/
inductive LogFmtr : Type where
  | mk (parent : Option LogFmtr) (isSubLabledLogger : Bool) (label : String)
      (level : Int) (logConfig : LC) : LogFmtr

/-- The `label` field. -/
def LogFmtr.label : LogFmtr → String
  | .mk _ _ l _ _ => l

/-- The `level` field. -/
def LogFmtr.level : LogFmtr → Int
  | .mk _ _ _ lv _ => lv

/-- `logFormatter.Log`: returns `some line` when a line is written via
`log.Println` and `none` when the call returns with no side effect.
The `formatter` argument is the color function each public level method
passes in; the message body is the already formatted `message`. -/
def Log (lg : LogFmtr) (formatter : Option gologsgo.FmtId) (severity : Int)
    (message : String) : Option String :=
  if severity > lg.level then none
  else
    let line := levelLabel severity ++ " [" ++ lg.label ++ "]: " ++ message
    some (match formatter with
          | none => line
          | some .grey => "\x1b[90;1m" ++ line ++ "\x1b[0m"
          | some .white => "\x1b[37m" ++ line ++ "\x1b[0m"
          | some .yellow => "\x1b[33m" ++ line ++ "\x1b[0m"
          | some .red => "\x1b[31m" ++ line ++ "\x1b[0m")

end logging

/-! Helper lemmas. -/

theorem listGetDSetSelf {α : Type} (l : List α) (i : Nat) (x d : α) (h : i < l.length) :
    (l.set i x).getD i d = x := by
  induction l generalizing i with
  | nil => simp at h
  | cons a as ih =>
    cases i with
    | zero => rfl
    | succ n => simpa using ih n (by simpa using h)

theorem goLen_eq_zero_iff (s : String) : goLen s = 0 ↔ s = "" := by
  cases s with
  | mk data =>
    cases data with
    | nil => simp [goLen]
    | cons c cs =>
      simp only [goLen, List.map_cons, List.sum_cons]
      constructor
      · intro h
        have := Char.utf8Size_pos c
        omega
      · intro h
        have hd : (c :: cs : List Char) = [] := congrArg String.data h
        cases hd

theorem logHandlerLoop_fst (h : gologsgo.LeveledLogHandler) :
    ∀ (fuel : Nat) (outer : Option gologsgo.FmtId) (lvl : gologsgo.LogLevel),
      (gologsgo.logHandlerLoop h fuel outer lvl).1 = outer := by
  intro fuel
  induction fuel with
  | zero => intro outer lvl; rfl
  | succ n ih =>
    intro outer lvl
    unfold gologsgo.logHandlerLoop
    cases hA : assocLookup h.Levels lvl with
    | some f => rfl
    | none =>
      simp only
      split
      · exact ih outer _
      · rfl

theorem sprintfS_two_args (a b : String) : sprintfS "%s: %s" [a, b] = a ++ ": " ++ b := by
  have hsplit : goSplit "%s: %s" "%s" = ["", ": ", ""] := by decide
  unfold sprintfS
  rw [hsplit]
  show "" ++ a ++ (": " ++ b ++ "") = a ++ ": " ++ b
  rw [String.empty_append, String.append_empty]
  simp only [String.append_assoc]

theorem sprintfS_three_args (a b c : String) :
    sprintfS "%s [%s]: %s" [a, b, c] = a ++ " [" ++ b ++ "]: " ++ c := by
  have hsplit : goSplit "%s [%s]: %s" "%s" = ["", " [", "]: ", ""] := by decide
  unfold sprintfS
  rw [hsplit]
  show "" ++ a ++ (" [" ++ b ++ ("]: " ++ c ++ "")) = a ++ " [" ++ b ++ "]: " ++ c
  rw [String.empty_append, String.append_empty]
  simp only [String.append_assoc]

theorem goToUpper_Label_eq (level : gologsgo.LogLevel) :
    goToUpper (gologsgo.LogLevels.Label level) = gologsgo.LogLevels.Label level := by
  cases level <;> decide

/-! Claim theorems. -/

/-- C1: for the configuration
`{level: ERROR, loggers: {main: {level: INFO, loggers: {test: {level: DEBUG}}}}}`,
the root logger's effective level is ERROR, the child `"main"` has
effective level INFO, and the grandchild (dotted label `"main.test"`)
has effective level DEBUG: an explicit level at the exact configuration
path overrides the level inherited from any ancestor. -/
theorem exact_path_override_levels :
    gologsgo.runErrorInfoDebug =
      some (.error, .info, "main", .debug, "main.test") := by
  decide

/-- C2: a log call invokes the output handler (equivalently, writes a
line) iff the message's level meets the logger's effective level — in
package gologsgo's ascending enum, `level ≥ effective`; in package
logging's descending integers, `severity ≤ effective`; otherwise the
call yields nothing. -/
theorem emission_threshold_iff :
    (∀ (σ : gologsgo.Store) (lg : gologsgo.GoLogger) (level : gologsgo.LogLevel)
        (message : String),
        (gologsgo.log σ lg level message).isSome = true ↔
          (gologsgo.loggerLevel σ lg).toNat ≤ level.toNat) ∧
    (∀ (lg : logging.LogFmtr) (formatter : Option gologsgo.FmtId) (severity : Int)
        (message : String),
        (logging.Log lg formatter severity message).isSome = true ↔
          severity ≤ lg.level) := by
  constructor
  · intro σ lg level message
    by_cases h : level.toNat < (gologsgo.loggerLevel σ lg).toNat <;>
      (simp [gologsgo.log, h]; try omega)
  · intro lg formatter severity message
    by_cases h : severity > lg.level <;>
      (simp [logging.Log, h]; try omega)

/-- C5: the default output handler is claimed to apply the formatter
registered for the message's exact level (here `color.YellowString` for
WARN), falling back along the severity scale; but the selection loop
assigns a shadowed variable, so the plain (uncolored) format is applied
even though a formatter is registered for the exact level. -/
theorem formatter_selection_always_plain :
    gologsgo.defaultLeveledLogHandler.LogHandlerOut ⟨.warn, "WARN", "main", "boom"⟩ =
        "WARN [main]: boom" ∧
    assocLookup gologsgo.defaultLeveledLogHandler.Levels .warn = some .yellow ∧
    gologsgo.applyFmt (some .yellow) gologsgo.defaultLeveledLogHandler.Format
        ["WARN", "main", "boom"] ≠ "WARN [main]: boom" := by
  refine ⟨by decide, by decide, by decide⟩

/-- C7: the loaders are claimed never to panic, but `EnvPrefixConfig`
evaluates `[]rune(envvalue)[0]` on a prefix-matching environment
variable with an empty value and panics with an index-out-of-range
runtime error instead of returning a value or an error. -/
theorem env_empty_value_panics :
    gologsgo.envPrefixConfig [("PREFIX_FOO", "")] "PREFIX" =
      .panicked "runtime error: index out of range" := by
  decide

/-- C10: `Previous` maps each level at index `i ≥ 2` of the order to the
level at index `i-1` with found=true, maps TRACE (index 1) to
`(NotSet, false)` because its guard requires `prev > 0`, and therefore a
downward walk along `Previous` can never reach ALL (index 0). -/
theorem previous_skips_all :
    gologsgo.LogLevels.Previous .debug = (.trace, true) ∧
    gologsgo.LogLevels.Previous .info = (.debug, true) ∧
    gologsgo.LogLevels.Previous .warn = (.info, true) ∧
    gologsgo.LogLevels.Previous .error = (.warn, true) ∧
    gologsgo.LogLevels.Previous .off = (.error, true) ∧
    gologsgo.LogLevels.Previous .trace = (.notSet, false) ∧
    ∀ level : gologsgo.LogLevel, gologsgo.LogLevels.Previous level ≠ (.all, true) := by
  refine ⟨by decide, by decide, by decide, by decide, by decide, by decide, ?_⟩
  intro level
  cases level <;> decide

/-- C4 (counterexample): with the environment variable
`PREFIX_LOGGERS__JSONCHILD` bound to
`{"level":"WARN","loggers":{"grandchild":{"level":"ERROR"}}}`, the
camelCase conversion of the segment `JSONCHILD` yields `jsonchild`, the
lookup of the child `"jsonChild"` misses, and both `"jsonChild"` and
`"jsonChild.grandchild"` resolve to the inherited default INFO — not to
WARN and ERROR as claimed. -/
theorem env_jsonchild_counterexample :
    gologsgo.runEnvJson "PREFIX_LOGGERS__JSONCHILD" = some (.info, .info) ∧
    gologsgo.runEnvJson "PREFIX_LOGGERS__JSONCHILD" ≠ some (.warn, .error) := by
  refine ⟨by decide, by decide⟩

/-- C4 (amended): with the environment variable
`PREFIX_LOGGERS__JSON_CHILD` — the upper-snake segment `JSON_CHILD`,
whose single underscore is kept as a word boundary so camelCase
conversion yields `jsonChild` — bound to
`{"level":"WARN","loggers":{"grandchild":{"level":"ERROR"}}}`, the child
`"jsonChild"` resolves to WARN and `"jsonChild.grandchild"` to ERROR. -/
theorem env_json_child_amended :
    gologsgo.runEnvJson "PREFIX_LOGGERS__JSON_CHILD" = some (.warn, .error) := by
  decide

/-- C3: every emitted message is printed by the default output handler
exactly as `<LEVEL>: <message>` when the emitting logger's label is
empty and exactly `<LEVEL> [<label>]: <message>` otherwise, where
`<LEVEL>` is the upper-case canonical name of the message's own level,
not the logger's threshold. -/
theorem output_line_format (σ : gologsgo.Store) (lg : gologsgo.GoLogger)
    (level : gologsgo.LogLevel) (message : String) (m : gologsgo.LogMessage)
    (h : gologsgo.log σ lg level message = some m) :
    gologsgo.defaultLeveledLogHandler.LogHandlerOut m =
      if lg.label = "" then gologsgo.LogLevels.Label level ++ ": " ++ message
      else gologsgo.LogLevels.Label level ++ " [" ++ lg.label ++ "]: " ++ message := by
  unfold gologsgo.log at h
  by_cases hlt : level.toNat < (gologsgo.loggerLevel σ lg).toNat
  · rw [if_pos hlt] at h; cases h
  · rw [if_neg hlt] at h
    injection h with h'
    subst h'
    simp only [gologsgo.LeveledLogHandler.LogHandlerOut, logHandlerLoop_fst]
    by_cases hlab : lg.label = ""
    · rw [hlab]
      rw [if_pos (show goLen gologsgo.defaultLeveledLogHandler.RootFormat > 0 ∧
            goLen "" = 0 from ⟨by decide, by decide⟩)]
      rw [if_pos rfl]
      show sprintfS "%s: %s" [goToUpper (gologsgo.LogLevels.Label level), message] = _
      rw [goToUpper_Label_eq]
      exact sprintfS_two_args _ _
    · have hcond : ¬(goLen gologsgo.defaultLeveledLogHandler.RootFormat > 0 ∧
          goLen lg.label = 0) := by
        intro hc
        exact hlab ((goLen_eq_zero_iff lg.label).mp hc.2)
      rw [if_neg hcond, if_neg hlab]
      show sprintfS "%s [%s]: %s"
          [goToUpper (gologsgo.LogLevels.Label level), lg.label, message] = _
      rw [goToUpper_Label_eq]
      exact sprintfS_three_args _ _ _

/-- C3 witness: a concrete emitted WARN message from the logger labeled
`"main.test"` is printed as `WARN [main.test]: hello`. -/
theorem output_line_format_witness :
    gologsgo.log gologsgo.storeInfo gologsgo.loggerMainTest .warn "hello" =
        some gologsgo.msgWarnHello ∧
    gologsgo.defaultLeveledLogHandler.LogHandlerOut gologsgo.msgWarnHello =
      (if gologsgo.loggerMainTest.label = "" then
          gologsgo.LogLevels.Label .warn ++ ": " ++ "hello"
        else
          gologsgo.LogLevels.Label .warn ++ " [" ++ gologsgo.loggerMainTest.label
            ++ "]: " ++ "hello") :=
  ⟨by decide, output_line_format gologsgo.storeInfo gologsgo.loggerMainTest .warn
      "hello" gologsgo.msgWarnHello (by decide)⟩

/-- C6 (counterexample): under a root logger whose label is the
single-character string `"a"`, the child `"test"` gets label `"test"`,
not `"a.test"` — the join requires the parent label's length to exceed
1, not merely to be non-empty. -/
theorem child_label_single_char_counterexample :
    gologsgo.runSingleCharLabel = some "test" ∧ "test" ≠ "a" ++ "." ++ "test" := by
  refine ⟨by decide, by decide⟩

/-- C6 (amended): for every parent logger and every valid, uncached
child name, the child's label is the parent's label, a dot, and the
name when the parent's label is at least two bytes long; for shorter
parent labels (empty or a single character) the child's label is just
the name with no leading dot. -/
theorem child_label_join_amended (σ : gologsgo.Store) (lg : gologsgo.GoLogger)
    (name : String)
    (h1 : ¬ goLen name < 1) (h2 : goContainsChar name '.' = false)
    (h3 : assocLookup lg.children name = none) :
    ∃ σ' lg' child, gologsgo.childLogger σ lg name = .ok (σ', lg', child) ∧
      child.label = (if goLen lg.label > 1 then lg.label ++ "." ++ name else name) := by
  unfold gologsgo.childLogger
  rw [if_neg h1]
  rw [if_neg (show ¬ goContainsChar name '.' = true by simp [h2])]
  rw [h3]
  exact ⟨_, _, _, rfl, rfl⟩

/-- C6 (amended) witness: the child `"kid"` of the logger labeled
`"main.test"` gets the joined label. -/
theorem child_label_join_amended_witness :
    (¬ goLen "kid" < 1) ∧ goContainsChar "kid" '.' = false ∧
    assocLookup gologsgo.loggerMainTest.children "kid" = none ∧
    (∃ σ' lg' child,
      gologsgo.childLogger gologsgo.storeInfo gologsgo.loggerMainTest "kid" =
          .ok (σ', lg', child) ∧
      child.label = (if goLen gologsgo.loggerMainTest.label > 1 then
          gologsgo.loggerMainTest.label ++ "." ++ "kid" else "kid")) :=
  ⟨by decide, by decide, rfl,
   child_label_join_amended gologsgo.storeInfo gologsgo.loggerMainTest "kid"
     (by decide) (by decide) rfl⟩

/-- C8: `ChildLogger` panics exactly on an empty name or a name
containing the path separator `.`, and for every other name it returns
a logger. -/
theorem child_name_contract (σ : gologsgo.Store) (lg : gologsgo.GoLogger)
    (name : String) :
    ((∃ m, gologsgo.childLogger σ lg name = .panicked m) ↔
      (goLen name < 1 ∨ goContainsChar name '.' = true)) ∧
    ((∃ r, gologsgo.childLogger σ lg name = .ok r) ↔
      ¬(goLen name < 1 ∨ goContainsChar name '.' = true)) := by
  by_cases h1 : goLen name < 1
  · simp [gologsgo.childLogger, h1]
  · by_cases h2 : goContainsChar name '.' = true
    · simp [gologsgo.childLogger, h1, h2]
    · cases hc : assocLookup lg.children name with
      | some child => simp [gologsgo.childLogger, h1, h2, hc]
      | none => simp [gologsgo.childLogger, h1, h2, hc]

/-- C9: creating an uncached child whose configuration entry exists with
an unset (`NotSet`) level writes the parent's effective level into that
shared entry in place: the store changes, and the entry's level reads
back as the parent's (non-`NotSet`) level afterwards. -/
theorem childlogger_mutates_shared_config (σ : gologsgo.Store)
    (lg : gologsgo.GoLogger) (name : String) (addr : Nat)
    (h1 : ¬ goLen name < 1) (h2 : goContainsChar name '.' = false)
    (h3 : assocLookup lg.children name = none)
    (h4 : assocLookup (gologsgo.readNode σ lg.configAddr).loggers name =
            some (some addr))
    (h5 : addr < σ.length)
    (h6 : (gologsgo.readNode σ addr).level = .notSet)
    (h7 : gologsgo.loggerLevel σ lg ≠ .notSet) :
    ∃ σ' lg' child, gologsgo.childLogger σ lg name = .ok (σ', lg', child) ∧
      (gologsgo.readNode σ' addr).level = gologsgo.loggerLevel σ lg ∧
      (gologsgo.readNode σ' addr).level ≠ .notSet ∧
      σ' ≠ σ ∧ child.configAddr = addr := by
  have hres : gologsgo.resolveChildConfig σ (gologsgo.readNode σ lg.configAddr) name =
      (σ.set addr ⟨(gologsgo.readNode σ addr).loggers,
                   (gologsgo.readNode σ lg.configAddr).level⟩, addr) := by
    unfold gologsgo.resolveChildConfig
    simp [h4, h6]
  have hlevel : (gologsgo.readNode (σ.set addr ⟨(gologsgo.readNode σ addr).loggers,
      (gologsgo.readNode σ lg.configAddr).level⟩) addr).level =
      (gologsgo.readNode σ lg.configAddr).level := by
    unfold gologsgo.readNode
    rw [listGetDSetSelf _ _ _ _ h5]
  unfold gologsgo.childLogger
  rw [if_neg h1]
  rw [if_neg (show ¬ goContainsChar name '.' = true by simp [h2])]
  rw [h3]
  refine ⟨_, _, _, rfl, ?_, ?_, ?_, ?_⟩
  · show (gologsgo.readNode
        (gologsgo.resolveChildConfig σ (gologsgo.readNode σ lg.configAddr) name).1
        addr).level = _
    rw [hres]
    exact hlevel
  · show (gologsgo.readNode
        (gologsgo.resolveChildConfig σ (gologsgo.readNode σ lg.configAddr) name).1
        addr).level ≠ _
    rw [hres]
    rw [hlevel]
    exact h7
  · show (gologsgo.resolveChildConfig σ (gologsgo.readNode σ lg.configAddr) name).1 ≠ σ
    rw [hres]
    intro heq
    have hlv := congrArg (fun t => (gologsgo.readNode t addr).level) heq
    simp only at hlv
    rw [hlevel, h6] at hlv
    exact h7 hlv
  · show (gologsgo.resolveChildConfig σ (gologsgo.readNode σ lg.configAddr) name).2 = addr
    rw [hres]

/-- C9 witness: in a concrete store whose parent node (level INFO)
references a `NotSet` node under the name `"kid"`, creating the child
writes INFO into that node. -/
theorem childlogger_mutates_shared_config_witness :
    (¬ goLen "kid" < 1) ∧ goContainsChar "kid" '.' = false ∧
    assocLookup gologsgo.loggerKid.children "kid" = none ∧
    assocLookup (gologsgo.readNode gologsgo.storeKid
        gologsgo.loggerKid.configAddr).loggers "kid" = some (some 0) ∧
    0 < gologsgo.storeKid.length ∧
    (gologsgo.readNode gologsgo.storeKid 0).level = .notSet ∧
    gologsgo.loggerLevel gologsgo.storeKid gologsgo.loggerKid ≠ .notSet ∧
    (∃ σ' lg' child,
      gologsgo.childLogger gologsgo.storeKid gologsgo.loggerKid "kid" =
          .ok (σ', lg', child) ∧
      (gologsgo.readNode σ' 0).level =
          gologsgo.loggerLevel gologsgo.storeKid gologsgo.loggerKid ∧
      (gologsgo.readNode σ' 0).level ≠ .notSet ∧
      σ' ≠ gologsgo.storeKid ∧ child.configAddr = 0) :=
  ⟨by decide, by decide, rfl, rfl, by decide, by decide, by decide,
   childlogger_mutates_shared_config gologsgo.storeKid gologsgo.loggerKid "kid" 0
     (by decide) (by decide) rfl rfl (by decide) (by decide) (by decide)⟩
